import Mathlib

/-
Shallow embedding of `src/one_shot_classifier.py` from the PolyMD repository.

The classification decision engine consists of:
  * a static label taxonomy (three groups of natural-language labels),
  * a lexical prefilter (`prefilter`),
  * a decision function (`decide`, instrumented as `decideCore` which also
    reports how many times the zero-shot scorer was invoked),
  * a module-level batch runner writing CSV rows (`batchRunE` / `batchRows`).

Modelling conventions:
  * Python floats are modelled as exact rationals (`Rat`); all score
    arithmetic in the source is plain `+`, `*`, `-`, `>=`, `max`, which
    `Rat` reproduces exactly for the decimal constants involved.
  * `re.search(pattern, text, re.I)` is an external library call; it is
    modelled as an uninterpreted oracle `rsearch : String → String → Bool`
    passed to every function that uses it.  The prefilter's own logic
    (lowercasing, substring membership, the boolean combination) is
    translated concretely.
  * The Hugging Face pipeline `clf` is the external scorer collaborator:
    it is a parameter `clf : String → ScoreMap` (or `String → Option ScoreMap`
    where scorer failure matters).  A `ScoreMap` is the association list
    `zip(res["labels"], res["scores"])` from which the source builds its
    dict; a dict over distinct keys is exactly a first-match association
    list, and lookups use `.get(k, 0.0)` semantics (`getScore`).
  * The Python dict literal returned on the prefilter-reject path has no
    `"prop_keywords"` key while the main path's dict does; the record field
    `prop_keywords : Option Bool` models key presence (`none` = key absent).
-/

/-- Positive label group from the source (lines 9-19). -/
def POSITIVE_LABELS : List String := [
  "polymer molecular dynamics with force fields",
  "all-atom polymer molecular dynamics",
  "united-atom polymer molecular dynamics",
  "coarse-grained polymer MD (MARTINI)",
  "reactive polymer MD (ReaxFF)",
  "polymer melt or solution MD",
  "MD of polymer blends or copolymers",
  "polymer MD using LAMMPS or GROMACS",
  "polymer MD with OPLS/AMBER/CHARMM/COMPASS/DREIDING/PCFF/GROMOS/TraPPE"]

/-- Property-focused label group from the source (lines 21-29). -/
def PROPERTY_LABELS : List String := [
  "polymer properties from MD (viscosity, diffusion, Tg)",
  "MD evaluation of polymer viscosity (rheology)",
  "MD estimation of polymer glass transition temperature (Tg)",
  "MD calculation of polymer diffusion or self-diffusion",
  "MD calculation of polymer mechanical properties (Young\x27s modulus, stress\u2013strain)",
  "MD prediction of polymer density or radius of gyration",
  "MD calculation of polymer transport or permeability"]

/-- Negative label group from the source (lines 31-42). -/
def NEGATIVE_LABELS : List String := [
  "experimental polymer rheology (no simulation)",
  "polymer synthesis or characterization (no simulation)",
  "quantum chemistry or DFT (no MD)",
  "Monte Carlo simulations (not MD)",
  "dissipative particle dynamics (DPD) without atomistic force fields",
  "continuum modeling or FEM/CFD (no MD)",
  "biomolecular MD (proteins/DNA, not polymers)",
  "materials science unrelated to polymers",
  "machine learning predictions without MD simulation",
  "review article (survey)"]

/-- Full label sequence: `LABELS = POSITIVE_LABELS + PROPERTY_LABELS + NEGATIVE_LABELS`. -/
def LABELS : List String := POSITIVE_LABELS ++ PROPERTY_LABELS ++ NEGATIVE_LABELS

/-- MD-method regex patterns (source lines 47-50); consumed only through the
regex oracle, kept as opaque pattern strings. -/
def MD_TERMS : List String := [
  "\\bmolecular dynamics\\b", "\\bMD\\b", "\\bMD simulation(s)?\\b",
  "\\bLAMMPS\\b", "\\bGROMACS\\b", "\\bNAMD\\b"]

/-- Force-field regex patterns (source lines 51-55). -/
def FF_TERMS : List String := [
  "\\bforce[- ]field\\b", "\\bOPLS\\b", "\\bAMBER\\b", "\\bCHARMM\\b", "\\bCOMPASS\\b",
  "\\bDREIDING\\b", "\\bPCFF\\b", "\\bGROMOS\\b", "\\bTraPPE\\b", "\\bMARTINI\\b", "\\bReaxFF\\b",
  "\\bcoarse[- ]grained\\b", "\\bunited[- ]atom\\b", "\\ball[- ]atom\\b"]

/-- Property-keyword regex patterns (source lines 56-64). -/
def PROPERTY_TERMS : List String := [
  "\\bviscosit(y|ies)\\b", "\\brheolog(y|ical)\\b",
  "\\bglass transition\\b", "\\bTg\\b",
  "\\bdiffus(ion|ivity)\\b", "\\bself[- ]diffus(ion|ivity)\\b",
  "\\bYoung\x27?s modulus\\b", "\\belastic modulus\\b", "\\bstress[-\u2013]strain\\b",
  "\\bdensity\\b", "\\bradius of gyration\\b", "\\bR[gG]\\b",
  "\\bpermeabilit(y|ies)\\b", "\\btransport\\b", "\\bthermal conductivity\\b",
  "\\bdielectric (constant|permittivity)\\b", "\\bconductivity\\b"]

/-- Python's substring test `needle in hay` on character lists. -/
def strContainsAux (needle : List Char) : List Char → Bool
  | [] => needle.isPrefixOf []
  | c :: t => needle.isPrefixOf (c :: t) || strContainsAux needle t

/-- Python's substring test `needle in hay` on strings. -/
def strContains (hay needle : String) : Bool :=
  strContainsAux needle.toList hay.toList

/-- Python `text.lower()`, modelled as character-wise lowercasing. -/
def pyLower (s : String) : String := ⟨s.toList.map Char.toLower⟩

/-- Lexical prefilter (source lines 66-71):
`has_poly and (md_hit or ff_hit)`, where `has_poly` is a case-insensitive
substring test and the regex hits go through the `rsearch` oracle
(the source calls `re.search(p, text, re.I)`). -/
def prefilter (rsearch : String → String → Bool) (text : String) : Bool :=
  let t := pyLower text
  let has_poly := strContains t "polymer" || strContains t "polymeric"
  let md_hit := MD_TERMS.any (fun p => rsearch p text)
  let ff_hit := FF_TERMS.any (fun p => rsearch p text)
  has_poly && (md_hit || ff_hit)

/-- A scorer result: the association list `zip(res["labels"], res["scores"])`. -/
abbrev ScoreMap := List (String × Rat)

/-- Python `score_map.get(k, 0.0)` (first-match lookup, default `0.0`;
identical to dict lookup whenever the labels of the map are distinct,
which the scorer guarantees by construction). -/
def getScore (m : ScoreMap) (k : String) : Rat :=
  match m with
  | [] => 0
  | kv :: rest => if kv.1 = k then kv.2 else getScore rest k

/-- Python `max` over a non-empty sequence (the empty case never arises in the
source because every label group is non-empty; `0` is a harmless total default). -/
def listMax : List Rat → Rat
  | [] => 0
  | x :: xs => xs.foldl max x

/-- Python `a >= b` on scores. -/
def rge (a b : Rat) : Bool := Decidable.decide (b ≤ a)

/-
Rational arithmetic: `Rat.add`, `Rat.sub` and `Rat.mul` are deliberately
`@[irreducible]` upstream, which blocks evaluation of closed terms by
`decide`.  The embedding therefore uses the `mkRat` cross-multiplication
formulations below; `radd_eq`, `rsub_eq` and `rmul_eq` prove them equal to
`+`, `-` and `*`, so the symbolic theorems can freely move between the two.
Likewise the decimal constants of the source (`0.70`, `0.15`, ...) are
written `mkRat 70 100` etc.; the lemmas following `defaultConfig` identify
them with the decimal literals.
-/

/-- Python `a + b` on scores, in kernel-reducible form. -/
def radd (a b : Rat) : Rat := mkRat (a.num * b.den + b.num * a.den) (a.den * b.den)

/-- Python `a - b` on scores, in kernel-reducible form. -/
def rsub (a b : Rat) : Rat := mkRat (a.num * b.den - b.num * a.den) (a.den * b.den)

/-- Python `a * b` on scores, in kernel-reducible form. -/
def rmul (a b : Rat) : Rat := mkRat (a.num * b.num) (a.den * b.den)

theorem radd_eq (a b : Rat) : radd a b = a + b := by
  rw [radd, Rat.add_def, Rat.normalize_eq_mkRat]

theorem rsub_eq (a b : Rat) : rsub a b = a - b := by
  rw [rsub, Rat.sub_def']

theorem rmul_eq (a b : Rat) : rmul a b = a * b := by
  rw [rmul, Rat.mul_def, Rat.normalize_eq_mkRat]

/-- Stable insertion into a weakly-descending list: the new element goes after
every existing element with a score `>=` its own. -/
def insertDesc (x : String × Rat) : List (String × Rat) → List (String × Rat)
  | [] => [x]
  | y :: ys => if rge x.2 y.2 then x :: y :: ys else y :: insertDesc x ys

/-- Python `sorted(items, key=lambda x: x[1], reverse=True)`: a stable sort,
descending by score, ties kept in original order. -/
def sortDesc : List (String × Rat) → List (String × Rat)
  | [] => []
  | x :: xs => insertDesc x (sortDesc xs)

/-- Threshold/margin configuration: the four keyword parameters of `decide`
(source lines 73-75). -/
structure Config where
  accept_threshold : Rat
  accept_margin : Rat
  priority_threshold : Rat
  priority_margin : Rat
deriving DecidableEq

/-- The documented default configuration `(0.70, 0.15, 0.65, 0.10)`
(source line 74-75 keyword defaults). -/
def defaultConfig : Config := ⟨mkRat 70 100, mkRat 15 100, mkRat 65 100, mkRat 10 100⟩

theorem defaultConfig_eq : defaultConfig = ⟨0.70, 0.15, 0.65, 0.10⟩ := by
  rw [defaultConfig]
  norm_num

/-- The dict returned by `decide`.  `prop_keywords` is an `Option` because the
prefilter-reject dict literal (source lines 83-85) has no `"prop_keywords"`
key, while the main-path dict (lines 111-121) does. -/
structure Decision where
  accept : Bool
  priority : Bool
  reason : String
  score_pos : Rat
  score_neg : Rat
  score_prop : Rat
  priority_score : Rat
  prop_keywords : Option Bool
  top : List (String × Rat)
deriving DecidableEq

/-- Source line 95: `score_pos = max(score_map.get(k, 0.0) for k in POSITIVE_LABELS)`. -/
def scorePos (score_map : ScoreMap) : Rat :=
  listMax (POSITIVE_LABELS.map (fun k => getScore score_map k))

/-- Source line 96: `score_neg = max(score_map.get(k, 0.0) for k in NEGATIVE_LABELS)`. -/
def scoreNeg (score_map : ScoreMap) : Rat :=
  listMax (NEGATIVE_LABELS.map (fun k => getScore score_map k))

/-- Source line 97: `score_prop = max(score_map.get(k, 0.0) for k in PROPERTY_LABELS)`. -/
def scoreProp (score_map : ScoreMap) : Rat :=
  listMax (PROPERTY_LABELS.map (fun k => getScore score_map k))

/-- Source line 100: `prop_kw = any(re.search(p, abstract_text, re.I) for p in PROPERTY_TERMS)`. -/
def propKw (rsearch : String → String → Bool) (abstract_text : String) : Bool :=
  PROPERTY_TERMS.any (fun p => rsearch p abstract_text)

/-- Source line 101: `kw_boost = 0.05 if prop_kw else 0.0`. -/
def kwBoost (prop_kw : Bool) : Rat := if prop_kw then mkRat 5 100 else 0

/-- Source line 104: `priority_score = 0.7*score_prop + 0.3*score_pos + kw_boost`. -/
def priorityScoreOf (score_prop score_pos kw_boost : Rat) : Rat :=
  radd (radd (rmul (mkRat 7 10) score_prop) (rmul (mkRat 3 10) score_pos)) kw_boost

/-- Source line 108: `accept = (score_pos >= accept_threshold) and
((score_pos - score_neg) >= accept_margin)`. -/
def acceptTest (cfg : Config) (score_pos score_neg : Rat) : Bool :=
  rge score_pos cfg.accept_threshold && rge (rsub score_pos score_neg) cfg.accept_margin

/-- Source line 109: `priority = (priority_score >= priority_threshold) and
((score_prop - score_neg) >= priority_margin)`. -/
def priorityTest (cfg : Config) (priority_score score_prop score_neg : Rat) : Bool :=
  rge priority_score cfg.priority_threshold && rge (rsub score_prop score_neg) cfg.priority_margin

/-- Source `decide` (lines 73-121), instrumented: the second component counts
how many times the zero-shot scorer `clf` was invoked (1 on the scored path,
0 on the prefilter-reject short-circuit). -/
def decideCore (rsearch : String → String → Bool) (clf : String → ScoreMap)
    (abstract_text : String) (cfg : Config) : Decision × Nat :=
  if prefilter rsearch abstract_text = false then
    (⟨false, false, "fails keyword prefilter", 0, 0, 0, 0, none, []⟩, 0)
  else
    let score_map := clf abstract_text
    let score_pos := scorePos score_map
    let score_neg := scoreNeg score_map
    let score_prop := scoreProp score_map
    let prop_kw := propKw rsearch abstract_text
    let kw_boost := kwBoost prop_kw
    let priority_score := priorityScoreOf score_prop score_pos kw_boost
    let top := (sortDesc score_map).take 6
    let accept := acceptTest cfg score_pos score_neg
    let priority := priorityTest cfg priority_score score_prop score_neg
    (⟨accept, priority,
      if accept then "pos high & margin over neg" else "pos low or margin small",
      score_pos, score_neg, score_prop, priority_score, some prop_kw, top⟩, 1)

/-- Source `decide`: the returned Decision dict. -/
def decide (rsearch : String → String → Bool) (clf : String → ScoreMap)
    (abstract_text : String) (cfg : Config) : Decision :=
  (decideCore rsearch clf abstract_text cfg).1

/-
Batch runner (source lines 123-215).  The DataLoader iterates the sorted
input files in fixed chunks of `BATCH_SIZE = 16` without shuffling, so the
loop is: split the `(filename, text)` sequence into successive chunks of 16;
per chunk build the prefilter mask, run the scorer once over the surviving
texts, scatter the accept decisions back via `to_run_indices`, and append one
CSV row `[filename, str(accept)]` per item.  The scorer is a function
`String → Option ScoreMap`; `none` models the pipeline call raising for that
text, which aborts the program (there is no try/except), so the run stops at
the failing chunk: rows of earlier chunks were already written, the failing
chunk and everything after it produce no rows.  A `csv.writer` stringifies a
Python bool as `"True"` / `"False"`.
-/

/-- Python `str` of a bool, as the csv writer renders it. -/
def pyBool (b : Bool) : String := if b then "True" else "False"

/-- DataLoader batch size (source line 132). -/
def BATCH_SIZE : Nat := 16

/-- Per-item accept arithmetic of the batch loop (source lines 199-206):
identical maxima, thresholds hard-coded to `0.70` / `0.15`. -/
def batchAccept (score_map : ScoreMap) : Bool :=
  let score_pos := scorePos score_map
  let score_neg := scoreNeg score_map
  rge score_pos (mkRat 70 100) && rge (rsub score_pos score_neg) (mkRat 15 100)

/-- The scatter loop `accepts[global_idx] = bool(accept)` over the
`(global_idx, output)` pairs (source lines 198-209). -/
def setAccepts : List Bool → List (Nat × ScoreMap) → List Bool
  | accepts, [] => accepts
  | accepts, giOut :: rest => setAccepts (accepts.set giOut.1 (batchAccept giOut.2)) rest

/-- One CSV row per item. -/
abbrev Row := List String

/-- One scorer pass over a list of texts: `some` of all results when every
call succeeds, `none` as soon as any call raises (the Python pipeline call
returns all outputs or raises for the whole invocation). -/
def optMap {α β : Type} (f : α → Option β) : List α → Option (List β)
  | [] => some []
  | a :: as =>
    match f a with
    | none => none
    | some b =>
      match optMap f as with
      | none => none
      | some bs => some (b :: bs)

/-- Processing of one DataLoader batch (source lines 172-213): prefilter mask,
`to_run_indices`, one scorer call over the surviving texts (`none` if the
pipeline raises on any of them, in which case no rows of this chunk are
written), scatter of accepts, then the emitted rows `[filename, str(accept)]`. -/
def chunkRowsE (rsearch : String → String → Bool) (clf : String → Option ScoreMap)
    (chunk : List (String × String)) : Option (List Row) :=
  let filenames := chunk.map Prod.fst
  let texts := chunk.map Prod.snd
  let mask := texts.map (prefilter rsearch)
  let accepts0 := texts.map (fun _ => false)
  let to_run_indices := (List.range texts.length).filter (fun i => mask.getD i false)
  let run_texts := to_run_indices.map (fun i => texts.getD i "")
  match optMap clf run_texts with
  | none => none
  | some outputs =>
    let accepts := setAccepts accepts0 (to_run_indices.zip outputs)
    some ((filenames.zip accepts).map (fun p => [p.1, pyBool p.2]))

/-- Chunked batch loop, fuel-structured on the input length (each DataLoader
step consumes at least one item).  Returns the rows written so far and whether
the run completed (`false` = the scorer raised and the run aborted). -/
def batchAux (rsearch : String → String → Bool) (clf : String → Option ScoreMap) :
    Nat → List (String × String) → List Row × Bool
  | _, [] => ([], true)
  | 0, _ :: _ => ([], true)
  | fuel + 1, x :: xs =>
    let items := x :: xs
    match chunkRowsE rsearch clf (items.take BATCH_SIZE) with
    | none => ([], false)
    | some rows =>
      let rest := batchAux rsearch clf fuel (items.drop BATCH_SIZE)
      (rows ++ rest.1, rest.2)

/-- The module-level batch run over an ordered `(filename, text)` sequence,
with a possibly-failing scorer. -/
def batchRunE (rsearch : String → String → Bool) (clf : String → Option ScoreMap)
    (inputs : List (String × String)) : List Row × Bool :=
  batchAux rsearch clf inputs.length inputs

/-- The batch run when the scorer succeeds on every text: the emitted data
rows (the header row `["filename", "accept"]` is written once before the
loop and carries no decision). -/
def batchRows (rsearch : String → String → Bool) (clf : String → ScoreMap)
    (inputs : List (String × String)) : List Row :=
  (batchRunE rsearch (fun t => some (clf t)) inputs).1

/-
Concrete oracles and scorers used by witnesses and counterexamples.
-/

/-- Regex oracle that reports a match for every pattern and text. -/
def rsearchAll : String → String → Bool := fun _ _ => true

/-- Regex oracle that reports no match for any pattern and text. -/
def rsearchNone : String → String → Bool := fun _ _ => false

/-- A full-coverage ScoreMap giving every label score 1. -/
def smOnes : ScoreMap := LABELS.map (fun l => (l, (1 : Rat)))

/-
General lemmas about the decision function.
-/

theorem decideCore_reject {rsearch : String → String → Bool} {clf : String → ScoreMap}
    {abstract_text : String} {cfg : Config} (h : prefilter rsearch abstract_text = false) :
    decideCore rsearch clf abstract_text cfg =
      (⟨false, false, "fails keyword prefilter", 0, 0, 0, 0, none, []⟩, 0) := by
  simp [decideCore, h]

theorem decideCore_scored {rsearch : String → String → Bool} {clf : String → ScoreMap}
    {abstract_text : String} {cfg : Config} (h : prefilter rsearch abstract_text = true) :
    decideCore rsearch clf abstract_text cfg =
      (⟨acceptTest cfg (scorePos (clf abstract_text)) (scoreNeg (clf abstract_text)),
        priorityTest cfg
          (priorityScoreOf (scoreProp (clf abstract_text)) (scorePos (clf abstract_text))
            (kwBoost (propKw rsearch abstract_text)))
          (scoreProp (clf abstract_text)) (scoreNeg (clf abstract_text)),
        if acceptTest cfg (scorePos (clf abstract_text)) (scoreNeg (clf abstract_text)) then
          "pos high & margin over neg" else "pos low or margin small",
        scorePos (clf abstract_text), scoreNeg (clf abstract_text), scoreProp (clf abstract_text),
        priorityScoreOf (scoreProp (clf abstract_text)) (scorePos (clf abstract_text))
          (kwBoost (propKw rsearch abstract_text)),
        some (propKw rsearch abstract_text),
        (sortDesc (clf abstract_text)).take 6⟩, 1) := by
  simp [decideCore, h]

theorem foldl_max_le {c : Rat} : ∀ (l : List Rat) (a : Rat), a ≤ c → (∀ x ∈ l, x ≤ c) →
    l.foldl max a ≤ c := by
  intro l
  induction l with
  | nil => intro a ha _; simpa using ha
  | cons y ys ih =>
    intro a ha h
    simp only [List.foldl_cons]
    exact ih (max a y) (max_le ha (h y (by simp))) (fun x hx => h x (by simp [hx]))

theorem le_foldl_max : ∀ (l : List Rat) (a : Rat), a ≤ l.foldl max a := by
  intro l
  induction l with
  | nil => intro a; simp
  | cons y ys ih =>
    intro a
    simp only [List.foldl_cons]
    exact le_trans (le_max_left a y) (ih (max a y))

theorem listMax_le {c : Rat} {l : List Rat} (h0 : 0 ≤ c) (h : ∀ x ∈ l, x ≤ c) :
    listMax l ≤ c := by
  cases l with
  | nil => simpa [listMax] using h0
  | cons x xs => exact foldl_max_le xs x (h x (by simp)) (fun y hy => h y (by simp [hy]))

theorem listMax_nonneg {l : List Rat} (h : ∀ x ∈ l, 0 ≤ x) : 0 ≤ listMax l := by
  cases l with
  | nil => simp [listMax]
  | cons x xs => exact le_trans (h x (by simp)) (le_foldl_max xs x)

theorem getScore_nonneg {sm : ScoreMap} (h : ∀ p ∈ sm, 0 ≤ p.2) (k : String) :
    0 ≤ getScore sm k := by
  induction sm with
  | nil => simp [getScore]
  | cons p rest ih =>
    rw [getScore]
    split
    · exact h p (by simp)
    · exact ih (fun q hq => h q (by simp [hq]))

theorem getScore_le_one {sm : ScoreMap} (h : ∀ p ∈ sm, p.2 ≤ 1) (k : String) :
    getScore sm k ≤ 1 := by
  induction sm with
  | nil => simp [getScore]
  | cons p rest ih =>
    rw [getScore]
    split
    · exact h p (by simp)
    · exact ih (fun q hq => h q (by simp [hq]))

theorem scorePos_mem_bounds {sm : ScoreMap} (h : ∀ p ∈ sm, 0 ≤ p.2 ∧ p.2 ≤ 1) :
    0 ≤ scorePos sm ∧ scorePos sm ≤ 1 := by
  constructor
  · exact listMax_nonneg (by
      intro x hx
      obtain ⟨k, _, rfl⟩ := List.mem_map.1 hx
      exact getScore_nonneg (fun q hq => (h q hq).1) k)
  · exact listMax_le (by norm_num) (by
      intro x hx
      obtain ⟨k, _, rfl⟩ := List.mem_map.1 hx
      exact getScore_le_one (fun q hq => (h q hq).2) k)

theorem scoreProp_mem_bounds {sm : ScoreMap} (h : ∀ p ∈ sm, 0 ≤ p.2 ∧ p.2 ≤ 1) :
    0 ≤ scoreProp sm ∧ scoreProp sm ≤ 1 := by
  constructor
  · exact listMax_nonneg (by
      intro x hx
      obtain ⟨k, _, rfl⟩ := List.mem_map.1 hx
      exact getScore_nonneg (fun q hq => (h q hq).1) k)
  · exact listMax_le (by norm_num) (by
      intro x hx
      obtain ⟨k, _, rfl⟩ := List.mem_map.1 hx
      exact getScore_le_one (fun q hq => (h q hq).2) k)

theorem rge_iff {a b : Rat} : rge a b = true ↔ b ≤ a := by
  simp [rge]

theorem acceptTest_mono {cfg : Config} {p p' n : Rat} (hpp : p ≤ p')
    (h : acceptTest cfg p n = true) : acceptTest cfg p' n = true := by
  rw [acceptTest, Bool.and_eq_true, rge_iff, rge_iff, rsub_eq] at h ⊢
  obtain ⟨h1, h2⟩ := h
  exact ⟨le_trans h1 hpp, by linarith⟩

/-
Lemmas about the stable descending sort used for the `top` diagnostics.
-/

theorem insertDesc_perm (x : String × Rat) :
    ∀ l : List (String × Rat), (insertDesc x l).Perm (x :: l) := by
  intro l
  induction l with
  | nil => exact List.Perm.refl _
  | cons y ys ih =>
    rw [insertDesc]
    by_cases h : rge x.2 y.2 = true
    · simp [h]
    · simp only [Bool.not_eq_true] at h
      simp only [h, Bool.false_eq_true, if_false]
      exact List.Perm.trans (List.Perm.cons y ih) (List.Perm.swap x y ys)

theorem sortDesc_perm : ∀ l : List (String × Rat), (sortDesc l).Perm l := by
  intro l
  induction l with
  | nil => exact List.Perm.refl _
  | cons x xs ih =>
    rw [sortDesc]
    exact List.Perm.trans (insertDesc_perm x (sortDesc xs)) (List.Perm.cons x ih)

theorem insertDesc_pairwise (x : String × Rat) :
    ∀ l : List (String × Rat),
      l.Pairwise (fun a b => b.2 ≤ a.2) → (insertDesc x l).Pairwise (fun a b => b.2 ≤ a.2) := by
  intro l
  induction l with
  | nil => intro _; simp [insertDesc]
  | cons y ys ih =>
    intro h
    rw [List.pairwise_cons] at h
    obtain ⟨hy, hys⟩ := h
    rw [insertDesc]
    by_cases hxy : rge x.2 y.2 = true
    · rw [if_pos hxy]
      rw [rge_iff] at hxy
      refine List.pairwise_cons.2 ⟨?_, List.pairwise_cons.2 ⟨hy, hys⟩⟩
      intro z hz
      rcases List.mem_cons.1 hz with rfl | hz'
      · exact hxy
      · exact le_trans (hy z hz') hxy
    · rw [if_neg hxy]
      have hxy' : x.2 ≤ y.2 := by
        rw [rge_iff] at hxy
        exact le_of_lt (lt_of_not_le hxy)
      refine List.pairwise_cons.2 ⟨?_, ih hys⟩
      intro z hz
      have hz' := (insertDesc_perm x ys).mem_iff.1 hz
      rcases List.mem_cons.1 hz' with rfl | hz''
      · exact hxy'
      · exact hy z hz''

theorem sortDesc_pairwise : ∀ l : List (String × Rat),
    (sortDesc l).Pairwise (fun a b => b.2 ≤ a.2) := by
  intro l
  induction l with
  | nil => simp [sortDesc]
  | cons x xs ih =>
    rw [sortDesc]
    exact insertDesc_pairwise x (sortDesc xs) ih

theorem sortDesc_of_pairwise : ∀ l : List (String × Rat),
    l.Pairwise (fun a b => b.2 ≤ a.2) → sortDesc l = l := by
  intro l
  induction l with
  | nil => intro _; rfl
  | cons x xs ih =>
    intro h
    rw [List.pairwise_cons] at h
    obtain ⟨hx, hxs⟩ := h
    rw [sortDesc, ih hxs]
    cases xs with
    | nil => rfl
    | cons y ys =>
      rw [insertDesc, if_pos (rge_iff.2 (hx y (by simp)))]

/-
Lemmas about the batch runner: list plumbing for the index scatter of the
source's `accepts[global_idx] = bool(accept)` loop.
-/

theorem optMap_some_of_total {α β : Type} (f : α → β) :
    ∀ l : List α, optMap (fun a => some (f a)) l = some (l.map f) := by
  intro l
  induction l with
  | nil => rfl
  | cons x xs ih => rw [optMap, ih]; rfl

theorem optMap_eq_none_iff {α β : Type} (f : α → Option β) :
    ∀ l : List α, optMap f l = none ↔ ∃ a ∈ l, f a = none := by
  intro l
  induction l with
  | nil => simp [optMap]
  | cons x xs ih =>
    rw [optMap]
    cases hx : f x with
    | none => simp [hx]
    | some b =>
      cases hxs : optMap f xs with
      | none =>
        dsimp only
        constructor
        · intro _
          obtain ⟨a, ha, hfa⟩ := ih.1 hxs
          exact ⟨a, List.mem_cons_of_mem x ha, hfa⟩
        · intro _; rfl
      | some bs =>
        dsimp only
        constructor
        · intro h; exact absurd h (by simp)
        · rintro ⟨a, ha, hfa⟩
          rcases List.mem_cons.1 ha with rfl | ha'
          · rw [hfa] at hx; exact absurd hx (by simp)
          · exact absurd (ih.2 ⟨a, ha', hfa⟩) (by simp [hxs])

theorem getD_set_self {α : Type} :
    ∀ (l : List α) (i : Nat) (x d : α), i < l.length → (l.set i x).getD i d = x := by
  intro l
  induction l with
  | nil => intro i x d h; simp at h
  | cons a as ih =>
    intro i x d h
    cases i with
    | zero => rfl
    | succ n =>
      simp only [List.set_cons_succ, List.getD_cons_succ]
      exact ih n x d (by simpa using h)

theorem getD_set_ne {α : Type} :
    ∀ (l : List α) (i j : Nat) (x d : α), i ≠ j → (l.set i x).getD j d = l.getD j d := by
  intro l
  induction l with
  | nil => intro i j x d _; rfl
  | cons a as ih =>
    intro i j x d hij
    cases i with
    | zero =>
      cases j with
      | zero => exact absurd rfl hij
      | succ m => rfl
    | succ n =>
      cases j with
      | zero => rfl
      | succ m =>
        simp only [List.set_cons_succ, List.getD_cons_succ]
        exact ih n m x d (fun h => hij (by rw [h]))

theorem getD_map_lt {α β : Type} (f : α → β) :
    ∀ (l : List α) (j : Nat) (d : β) (d' : α), j < l.length →
      (l.map f).getD j d = f (l.getD j d') := by
  intro l
  induction l with
  | nil => intro j d d' h; simp at h
  | cons a as ih =>
    intro j d d' h
    cases j with
    | zero => rfl
    | succ n =>
      simp only [List.map_cons, List.getD_cons_succ]
      exact ih n d d' (by simpa using h)

theorem getD_lt_mem {α : Type} :
    ∀ (l : List α) (j : Nat) (d : α), j < l.length → l.getD j d ∈ l := by
  intro l
  induction l with
  | nil => intro j d h; simp at h
  | cons a as ih =>
    intro j d h
    cases j with
    | zero => simp [List.getD_cons_zero]
    | succ n =>
      simp only [List.getD_cons_succ]
      exact List.mem_cons_of_mem a (ih n d (by simpa using h))

theorem mem_iff_getD {α : Type} (l : List α) (a d : α) :
    a ∈ l ↔ ∃ j, j < l.length ∧ l.getD j d = a := by
  constructor
  · intro h
    induction l with
    | nil => simp at h
    | cons x xs ih =>
      rcases List.mem_cons.1 h with rfl | h'
      · exact ⟨0, by simp, rfl⟩
      · obtain ⟨j, hj, hja⟩ := ih h'
        exact ⟨j + 1, by simpa using hj, hja⟩
  · rintro ⟨j, hj, rfl⟩
    exact getD_lt_mem l j d hj

theorem ext_getD {α : Type} :
    ∀ (l₁ l₂ : List α) (d : α), l₁.length = l₂.length →
      (∀ j, j < l₁.length → l₁.getD j d = l₂.getD j d) → l₁ = l₂ := by
  intro l₁
  induction l₁ with
  | nil =>
    intro l₂ d hlen _
    cases l₂ with
    | nil => rfl
    | cons _ _ => simp at hlen
  | cons a as ih =>
    intro l₂ d hlen hpt
    cases l₂ with
    | nil => simp at hlen
    | cons b bs =>
      have h0 := hpt 0 (by simp)
      simp only [List.getD_cons_zero] at h0
      have htail := ih bs d (by simpa using hlen) (fun j hj => by
        have := hpt (j + 1) (by simpa using hj)
        simpa only [List.getD_cons_succ] using this)
      rw [h0, htail]

theorem zip_map_self {α β : Type} (g : α → β) :
    ∀ l : List α, l.zip (l.map g) = l.map (fun i => (i, g i)) := by
  intro l
  induction l with
  | nil => rfl
  | cons x xs ih => simp [List.zip_cons_cons, ih]

theorem zip_map_pair {α β γ : Type} (f : α → β) (g : α → γ) :
    ∀ l : List α, (l.map f).zip (l.map g) = l.map (fun a => (f a, g a)) := by
  intro l
  induction l with
  | nil => rfl
  | cons x xs ih => simp [List.zip_cons_cons, ih]

theorem setAccepts_length :
    ∀ (ps : List (Nat × ScoreMap)) (acc : List Bool), (setAccepts acc ps).length = acc.length := by
  intro ps
  induction ps with
  | nil => intro acc; rfl
  | cons p rest ih =>
    intro acc
    rw [setAccepts, ih, List.length_set]

theorem setAccepts_getD_not_mem :
    ∀ (ps : List (Nat × ScoreMap)) (acc : List Bool) (j : Nat),
      j ∉ ps.map Prod.fst → (setAccepts acc ps).getD j false = acc.getD j false := by
  intro ps
  induction ps with
  | nil => intro acc j _; rfl
  | cons p rest ih =>
    intro acc j hj
    simp only [List.map_cons, List.mem_cons] at hj
    push_neg at hj
    rw [setAccepts, ih _ _ hj.2, getD_set_ne _ _ _ _ _ (fun h => hj.1 h.symm)]

theorem setAccepts_getD_mem :
    ∀ (ps : List (Nat × ScoreMap)) (acc : List Bool) (j : Nat) (v : ScoreMap),
      (ps.map Prod.fst).Nodup → (j, v) ∈ ps → j < acc.length →
      (setAccepts acc ps).getD j false = batchAccept v := by
  intro ps
  induction ps with
  | nil => intro acc j v _ hmem _; simp at hmem
  | cons p rest ih =>
    intro acc j v hnd hmem hj
    simp only [List.map_cons, List.nodup_cons] at hnd
    rcases List.mem_cons.1 hmem with heq | hmem'
    · subst heq
      dsimp only at hnd
      rw [setAccepts]
      dsimp only
      rw [setAccepts_getD_not_mem rest _ j hnd.1, getD_set_self _ _ _ _ hj]
    · have hjne : p.1 ≠ j := by
        intro h
        exact hnd.1 (h ▸ List.mem_map.2 ⟨(j, v), hmem', by rw [← h]⟩)
      rw [setAccepts]
      rw [ih _ j v hnd.2 hmem' (by rw [List.length_set]; exact hj)]

theorem map_fst_pairs (g : Nat → ScoreMap) (l : List Nat) :
    (l.map (fun i => (i, g i))).map Prod.fst = l := by
  rw [List.map_map]
  show List.map id l = l
  exact List.map_id l

theorem setAccepts_scatter (g : Nat → ScoreMap) (toRun : List Nat) (hnd : toRun.Nodup)
    (acc : List Bool) (j : Nat) (hj : j < acc.length) :
    (setAccepts acc (toRun.map (fun i => (i, g i)))).getD j false =
      if j ∈ toRun then batchAccept (g j) else acc.getD j false := by
  by_cases hmem : j ∈ toRun
  · rw [if_pos hmem]
    have hnd' : ((toRun.map (fun i => (i, g i))).map Prod.fst).Nodup := by
      rw [map_fst_pairs]; exact hnd
    exact setAccepts_getD_mem _ acc j (g j) hnd' (List.mem_map.2 ⟨j, hmem, rfl⟩) hj
  · rw [if_neg hmem]
    apply setAccepts_getD_not_mem
    rw [map_fst_pairs]
    exact hmem

theorem accepts_eq (rsearch : String → String → Bool) (clf : String → ScoreMap)
    (texts : List String) :
    setAccepts (texts.map (fun _ => false))
      (((List.range texts.length).filter
          (fun i => (texts.map (prefilter rsearch)).getD i false)).zip
        ((((List.range texts.length).filter
            (fun i => (texts.map (prefilter rsearch)).getD i false)).map
          (fun i => texts.getD i "")).map clf)) =
      texts.map (fun t => if prefilter rsearch t then batchAccept (clf t) else false) := by
  have hzip : (((List.range texts.length).filter
        (fun i => (texts.map (prefilter rsearch)).getD i false)).zip
      ((((List.range texts.length).filter
          (fun i => (texts.map (prefilter rsearch)).getD i false)).map
        (fun i => texts.getD i "")).map clf)) =
      ((List.range texts.length).filter
        (fun i => (texts.map (prefilter rsearch)).getD i false)).map
        (fun i => (i, clf (texts.getD i ""))) := by
    rw [List.map_map]
    exact zip_map_self _ _
  rw [hzip]
  apply ext_getD _ _ false
  · rw [setAccepts_length, List.length_map, List.length_map]
  · intro j hj
    rw [setAccepts_length, List.length_map] at hj
    rw [getD_map_lt (fun t => if prefilter rsearch t then batchAccept (clf t) else false)
      texts j false "" hj]
    rw [setAccepts_scatter (fun i => clf (texts.getD i "")) _
      ((List.nodup_range texts.length).filter _) _ j (by rw [List.length_map]; exact hj)]
    have hmaskj : ((texts.map (prefilter rsearch)).getD j false) =
        prefilter rsearch (texts.getD j "") :=
      getD_map_lt (prefilter rsearch) texts j false "" hj
    by_cases hpf : prefilter rsearch (texts.getD j "") = true
    · rw [if_pos, if_pos hpf]
      exact List.mem_filter.2 ⟨List.mem_range.2 hj, by rw [hmaskj]; exact hpf⟩
    · have hpf' : prefilter rsearch (texts.getD j "") = false := by
        simpa using hpf
      rw [if_neg, if_neg hpf, getD_map_lt (fun _ => false) texts j false "" hj]
      intro hmem
      have := (List.mem_filter.1 hmem).2
      rw [hmaskj, hpf'] at this
      exact absurd this (by simp)

theorem chunkRowsE_total (rsearch : String → String → Bool) (clf : String → ScoreMap)
    (chunk : List (String × String)) :
    chunkRowsE rsearch (fun t => some (clf t)) chunk =
      some (chunk.map (fun p =>
        [p.1, pyBool (if prefilter rsearch p.2 then batchAccept (clf p.2) else false)])) := by
  dsimp only [chunkRowsE]
  rw [optMap_some_of_total]
  dsimp only
  rw [accepts_eq rsearch clf (chunk.map Prod.snd)]
  rw [show (chunk.map Prod.snd).map
        (fun t => if prefilter rsearch t then batchAccept (clf t) else false) =
      chunk.map (fun p => if prefilter rsearch p.2 then batchAccept (clf p.2) else false) from
    List.map_map ..]
  rw [zip_map_pair Prod.fst
    (fun p => if prefilter rsearch p.2 then batchAccept (clf p.2) else false) chunk]
  rw [List.map_map]
  rfl

theorem batchAux_total (rsearch : String → String → Bool) (clf : String → ScoreMap) :
    ∀ (fuel : Nat) (items : List (String × String)), items.length ≤ fuel →
    batchAux rsearch (fun t => some (clf t)) fuel items =
      (items.map (fun p =>
        [p.1, pyBool (if prefilter rsearch p.2 then batchAccept (clf p.2) else false)]), true) := by
  intro fuel
  induction fuel with
  | zero =>
    intro items h
    cases items with
    | nil => rfl
    | cons x xs => simp at h
  | succ n ih =>
    intro items h
    cases items with
    | nil => rfl
    | cons x xs =>
      have hlen : ((x :: xs).drop BATCH_SIZE).length ≤ n := by
        rw [List.length_drop]
        have hxl : (x :: xs).length ≤ n + 1 := h
        have hpos : 0 < (x :: xs).length := by simp
        rw [BATCH_SIZE]
        omega
      rw [batchAux, chunkRowsE_total]
      dsimp only
      rw [ih ((x :: xs).drop BATCH_SIZE) hlen]
      dsimp only
      rw [← List.map_append, List.take_append_drop]

theorem batchRows_eq (rsearch : String → String → Bool) (clf : String → ScoreMap)
    (inputs : List (String × String)) :
    batchRows rsearch clf inputs = inputs.map (fun p =>
      [p.1, pyBool (if prefilter rsearch p.2 then batchAccept (clf p.2) else false)]) := by
  rw [batchRows, batchRunE, batchAux_total rsearch clf inputs.length inputs (le_refl _)]

theorem run_texts_mem_iff (rsearch : String → String → Bool)
    (chunk : List (String × String)) (t : String) :
    (t ∈ ((List.range (chunk.map Prod.snd).length).filter
        (fun i => ((chunk.map Prod.snd).map (prefilter rsearch)).getD i false)).map
      (fun i => (chunk.map Prod.snd).getD i ""))
    ↔ ∃ p ∈ chunk, prefilter rsearch p.2 = true ∧ p.2 = t := by
  constructor
  · intro ht
    obtain ⟨i, hi, rfl⟩ := List.mem_map.1 ht
    have hi' := List.mem_filter.1 hi
    have hin : i < (chunk.map Prod.snd).length := List.mem_range.1 hi'.1
    have hinc : i < chunk.length := by simpa using hin
    have hmask := hi'.2
    rw [getD_map_lt (prefilter rsearch) (chunk.map Prod.snd) i false "" hin] at hmask
    refine ⟨chunk.getD i ("", ""), getD_lt_mem chunk i ("", "") hinc, ?_, ?_⟩
    · rw [← getD_map_lt Prod.snd chunk i "" ("", "") hinc]
      exact hmask
    · rw [← getD_map_lt Prod.snd chunk i "" ("", "") hinc]
  · rintro ⟨p, hp, hpf, rfl⟩
    obtain ⟨i, hinc, hgd⟩ := (mem_iff_getD chunk p ("", "")).1 hp
    have hin : i < (chunk.map Prod.snd).length := by simpa using hinc
    have hval : (chunk.map Prod.snd).getD i "" = p.2 := by
      rw [getD_map_lt Prod.snd chunk i "" ("", "") hinc, hgd]
    refine List.mem_map.2 ⟨i, List.mem_filter.2 ⟨List.mem_range.2 hin, ?_⟩, hval⟩
    rw [getD_map_lt (prefilter rsearch) (chunk.map Prod.snd) i false "" hin, hval]
    exact hpf

theorem chunkRowsE_none_iff (rsearch : String → String → Bool)
    (clf : String → Option ScoreMap) (chunk : List (String × String)) :
    chunkRowsE rsearch clf chunk = none ↔
      ∃ p ∈ chunk, prefilter rsearch p.2 = true ∧ clf p.2 = none := by
  dsimp only [chunkRowsE]
  cases hopt : optMap clf (((List.range (chunk.map Prod.snd).length).filter
      (fun i => ((chunk.map Prod.snd).map (prefilter rsearch)).getD i false)).map
    (fun i => (chunk.map Prod.snd).getD i "")) with
  | none =>
    dsimp only
    constructor
    · intro _
      obtain ⟨t, ht, hclf⟩ := (optMap_eq_none_iff clf _).1 hopt
      obtain ⟨p, hp, hpf, hpt⟩ := (run_texts_mem_iff rsearch chunk t).1 ht
      exact ⟨p, hp, hpf, by rw [hpt]; exact hclf⟩
    · intro _; rfl
  | some outputs =>
    dsimp only
    constructor
    · intro hcontr
      exact absurd hcontr (by simp)
    · rintro ⟨p, hp, hpf, hclf⟩
      have ht : p.2 ∈ ((List.range (chunk.map Prod.snd).length).filter
          (fun i => ((chunk.map Prod.snd).map (prefilter rsearch)).getD i false)).map
        (fun i => (chunk.map Prod.snd).getD i "") :=
        (run_texts_mem_iff rsearch chunk p.2).2 ⟨p, hp, hpf, rfl⟩
      have := (optMap_eq_none_iff clf _).2 ⟨p.2, ht, hclf⟩
      rw [hopt] at this
      exact absurd this (by simp)

theorem batchAux_aborts_iff (rsearch : String → String → Bool)
    (clf : String → Option ScoreMap) :
    ∀ (fuel : Nat) (items : List (String × String)), items.length ≤ fuel →
    ((batchAux rsearch clf fuel items).2 = false ↔
      ∃ p ∈ items, prefilter rsearch p.2 = true ∧ clf p.2 = none) := by
  intro fuel
  induction fuel with
  | zero =>
    intro items h
    cases items with
    | nil => simp [batchAux]
    | cons x xs => simp at h
  | succ n ih =>
    intro items h
    cases items with
    | nil => simp [batchAux]
    | cons x xs =>
      have hlen : ((x :: xs).drop BATCH_SIZE).length ≤ n := by
        rw [List.length_drop]
        have hxl : (x :: xs).length ≤ n + 1 := h
        have hpos : 0 < (x :: xs).length := by simp
        rw [BATCH_SIZE]
        omega
      rw [batchAux]
      cases hc : chunkRowsE rsearch clf ((x :: xs).take BATCH_SIZE) with
      | none =>
        dsimp only
        constructor
        · intro _
          obtain ⟨p, hp, hpf, hclf⟩ := (chunkRowsE_none_iff rsearch clf _).1 hc
          exact ⟨p, List.take_subset _ _ hp, hpf, hclf⟩
        · intro _; rfl
      | some rows =>
        dsimp only
        rw [ih ((x :: xs).drop BATCH_SIZE) hlen]
        constructor
        · rintro ⟨p, hp, h1, h2⟩
          exact ⟨p, List.drop_subset _ _ hp, h1, h2⟩
        · rintro ⟨p, hp, h1, h2⟩
          have hsplit : p ∈ (x :: xs).take BATCH_SIZE ++ (x :: xs).drop BATCH_SIZE := by
            rw [List.take_append_drop]
            exact hp
          rcases List.mem_append.1 hsplit with htk | hdr
          · exact absurd ((chunkRowsE_none_iff rsearch clf _).2 ⟨p, htk, h1, h2⟩)
              (by simp [hc])
          · exact ⟨p, hdr, h1, h2⟩

theorem batchRunE_aborts_iff (rsearch : String → String → Bool)
    (clf : String → Option ScoreMap) (inputs : List (String × String)) :
    (batchRunE rsearch clf inputs).2 = false ↔
      ∃ p ∈ inputs, prefilter rsearch p.2 = true ∧ clf p.2 = none :=
  batchAux_aborts_iff rsearch clf inputs.length inputs (le_refl _)


/-
Constant identifications between the kernel-reducible `mkRat` forms and the
decimal literals of the source.
-/

theorem mk7_eq : mkRat 7 10 = (0.7 : Rat) := by norm_num

theorem mk3_eq : mkRat 3 10 = (0.3 : Rat) := by norm_num

theorem mk5_eq : mkRat 5 100 = (0.05 : Rat) := by norm_num

/-- Unfolding equation for `decide` usable with `rw` (the bare name clashes
with `Decidable.decide`). -/
theorem decide_def (rsearch : String → String → Bool) (clf : String → ScoreMap)
    (abstract_text : String) (cfg : Config) :
    decide rsearch clf abstract_text cfg = (decideCore rsearch clf abstract_text cfg).1 := rfl

/-- The accept boolean of `decide` at the default configuration coincides with
the batch loop's accept arithmetic (both paths read the same hard constants
`0.70` / `0.15`); prefilter-rejected texts give `false` on both paths. -/
theorem accept_eq_batch (rsearch : String → String → Bool) (clf : String → ScoreMap)
    (t : String) :
    (decide rsearch clf t defaultConfig).accept =
      if prefilter rsearch t then batchAccept (clf t) else false := by
  by_cases hpf : prefilter rsearch t = true
  · rw [decide_def, decideCore_scored hpf, if_pos hpf]
    rfl
  · have hpf' : prefilter rsearch t = false := by simpa using hpf
    rw [decide_def, decideCore_reject hpf', if_neg hpf]

/-
Concrete fixtures for witnesses and counterexamples.
-/

set_option maxRecDepth 100000

/-- A one-label ScoreMap scoring the first positive label 0.8. -/
def smPos8 : ScoreMap := [("polymer molecular dynamics with force fields", mkRat 8 10)]

/-- A one-label ScoreMap scoring the first positive label 0.9. -/
def smPos9 : ScoreMap := [("polymer molecular dynamics with force fields", mkRat 9 10)]

/-- A full-coverage ScoreMap with all scores 1/2 whose first two labels come in
the opposite of taxonomy order. -/
def smSwap : ScoreMap :=
  ("all-atom polymer molecular dynamics", mkRat 1 2) ::
    ("polymer molecular dynamics with force fields", mkRat 1 2) ::
    (LABELS.drop 2).map (fun l => (l, mkRat 1 2))

/-- A configuration whose accept threshold 1.5 lies outside [0, 1]. -/
def cfgBad : Config := ⟨mkRat 3 2, mkRat 15 100, mkRat 65 100, mkRat 10 100⟩

/-- A scorer that fails on one specific text and succeeds elsewhere. -/
def clfFail : String → Option ScoreMap :=
  fun t => if t = "polymer alpha" then none else some smPos9

/-
Claim theorems.
-/

/-- C1 counterexample: the Batch Runner emits two-field rows
`[filename, str(accept)]` with no priority column, so at the concrete
one-item input below its output differs from the `[id, accept, priority]`
sequence that running the text through `decide` would dictate; the batch and
single-item paths do not yield the same accept/priority sequence because the
batch path produces no priority at all. -/
theorem C1_counterexample :
    batchRows rsearchNone (fun _ => []) [("a.txt", "no abstract")] ≠
      [["a.txt",
        pyBool (decide rsearchNone (fun _ => []) "no abstract" defaultConfig).accept,
        pyBool (decide rsearchNone (fun _ => []) "no abstract" defaultConfig).priority]] ∧
    batchRows rsearchNone (fun _ => []) [("a.txt", "no abstract")] = [["a.txt", "False"]] :=
  ⟨by decide, by decide⟩

/-- C1 (amended): for any texts and any scorer (the same scorer function
serves both call patterns, so both see identical ScoreMaps), the Batch
Runner's emitted rows carry, order-for-order, exactly the filename and the
accept value that `decide` at its default configuration produces for that
text; the batch path computes no priority value. -/
theorem C1_batch_single_accept_equiv (rsearch : String → String → Bool)
    (clf : String → ScoreMap) (inputs : List (String × String)) :
    batchRows rsearch clf inputs =
      inputs.map (fun p => [p.1, pyBool (decide rsearch clf p.2 defaultConfig).accept]) := by
  rw [batchRows_eq]
  apply List.map_congr_left
  intro p _
  rw [accept_eq_batch]

/-- C2: on every scored text (prefilter passed), `decide` computes the three
group scores as maxima of the ScoreMap lookups over the Positive, Negative
and Property label groups, records the property-keyword flag, computes
`priority_score = 0.7*score_prop + 0.3*score_pos + kw_boost` with
`kw_boost = 0.05` exactly when a property-keyword pattern matches and `0`
otherwise, and returns the threshold/margin tests
`accept = score_pos >= accept_threshold ∧ score_pos - score_neg >= accept_margin`
and `priority = priority_score >= priority_threshold ∧
score_prop - score_neg >= priority_margin`. -/
def C2Concl (rsearch : String → String → Bool) (clf : String → ScoreMap)
    (abstract_text : String) (cfg : Config) : Prop :=
  (decide rsearch clf abstract_text cfg).score_pos =
    listMax (POSITIVE_LABELS.map (fun l => getScore (clf abstract_text) l)) ∧
  (decide rsearch clf abstract_text cfg).score_neg =
    listMax (NEGATIVE_LABELS.map (fun l => getScore (clf abstract_text) l)) ∧
  (decide rsearch clf abstract_text cfg).score_prop =
    listMax (PROPERTY_LABELS.map (fun l => getScore (clf abstract_text) l)) ∧
  (decide rsearch clf abstract_text cfg).prop_keywords =
    some (PROPERTY_TERMS.any (fun p => rsearch p abstract_text)) ∧
  (decide rsearch clf abstract_text cfg).priority_score =
    0.7 * (decide rsearch clf abstract_text cfg).score_prop +
      0.3 * (decide rsearch clf abstract_text cfg).score_pos +
      (if PROPERTY_TERMS.any (fun p => rsearch p abstract_text) then 0.05 else 0) ∧
  ((decide rsearch clf abstract_text cfg).accept = true ↔
    cfg.accept_threshold ≤ (decide rsearch clf abstract_text cfg).score_pos ∧
    cfg.accept_margin ≤ (decide rsearch clf abstract_text cfg).score_pos -
      (decide rsearch clf abstract_text cfg).score_neg) ∧
  ((decide rsearch clf abstract_text cfg).priority = true ↔
    cfg.priority_threshold ≤ (decide rsearch clf abstract_text cfg).priority_score ∧
    cfg.priority_margin ≤ (decide rsearch clf abstract_text cfg).score_prop -
      (decide rsearch clf abstract_text cfg).score_neg)

/-- C2: decision arithmetic of `decide` on the scored path, for every scorer,
text and configuration (see `C2Concl` for the spelled-out property). -/
theorem C2_decision_arithmetic (rsearch : String → String → Bool)
    (clf : String → ScoreMap) (abstract_text : String) (cfg : Config)
    (h : prefilter rsearch abstract_text = true) :
    C2Concl rsearch clf abstract_text cfg := by
  rw [C2Concl, decide_def, decideCore_scored h]
  dsimp only
  refine ⟨rfl, rfl, rfl, rfl, ?_, ?_, ?_⟩
  · rw [priorityScoreOf, radd_eq, radd_eq, rmul_eq, rmul_eq, mk7_eq, mk3_eq,
      kwBoost, propKw, mk5_eq]
  · rw [acceptTest, Bool.and_eq_true, rge_iff, rge_iff, rsub_eq]
  · rw [priorityTest, Bool.and_eq_true, rge_iff, rge_iff, rsub_eq]

theorem C2_decision_arithmetic_witness :
    prefilter rsearchAll "polymer" = true ∧
    C2Concl rsearchAll (fun _ => smOnes) "polymer" defaultConfig :=
  ⟨by decide, C2_decision_arithmetic rsearchAll (fun _ => smOnes) "polymer" defaultConfig
    (by decide)⟩

/-- C3 counterexample: at a concrete prefilter-rejected text, the Decision
returned by `decide` does not contain the `prop_keywords` field (the Python
short-circuit dict literal has no `"prop_keywords"` key, modelled as `none`),
contradicting the claim that the short-circuit Decision contains every field
of the data model's Decision record, in particular `prop_keywords : bool`. -/
theorem C3_counterexample :
    prefilter rsearchNone "quantum chemistry" = false ∧
    (decide rsearchNone (fun _ => []) "quantum chemistry" defaultConfig).prop_keywords =
      none :=
  ⟨by decide, by decide⟩

/-- C3 (amended): for every text the prefilter rejects, `decide`
short-circuits without invoking the scorer (call count 0, and the result is
the same for every scorer), returning `accept=False`, `priority=False`,
`reason="fails keyword prefilter"`, all four scores exactly 0, an empty `top`
— but no `prop_keywords` entry. -/
theorem C3_reject_shortcircuit (rsearch : String → String → Bool)
    (clf : String → ScoreMap) (abstract_text : String) (cfg : Config)
    (h : prefilter rsearch abstract_text = false) :
    decideCore rsearch clf abstract_text cfg =
      (⟨false, false, "fails keyword prefilter", 0, 0, 0, 0, none, []⟩, 0) :=
  decideCore_reject h

theorem C3_reject_shortcircuit_witness :
    prefilter rsearchNone "quantum chemistry of metals" = false ∧
    decideCore rsearchNone (fun _ => []) "quantum chemistry of metals" defaultConfig =
      (⟨false, false, "fails keyword prefilter", 0, 0, 0, 0, none, []⟩, 0) :=
  ⟨by decide, C3_reject_shortcircuit rsearchNone (fun _ => [])
    "quantum chemistry of metals" defaultConfig (by decide)⟩

/-- C4 counterexample: at a concrete two-item input the Batch Runner emits
two-field rows `[id, accept]` in input order — not `[id, accept, priority]`
records — so the claimed output shape is false; the rejected item does appear
(as accept "False") and order is preserved, but no priority field exists. -/
theorem C4_counterexample :
    batchRows rsearchAll (fun _ => smPos9) [("a.txt", "polymer melt"), ("b.txt", "nothing")] =
      [["a.txt", "True"], ["b.txt", "False"]] ∧
    batchRows rsearchAll (fun _ => smPos9) [("a.txt", "polymer melt"), ("b.txt", "nothing")] ≠
      [["a.txt",
        pyBool (decide rsearchAll (fun _ => smPos9) "polymer melt" defaultConfig).accept,
        pyBool (decide rsearchAll (fun _ => smPos9) "polymer melt" defaultConfig).priority],
       ["b.txt",
        pyBool (decide rsearchAll (fun _ => smPos9) "nothing" defaultConfig).accept,
        pyBool (decide rsearchAll (fun _ => smPos9) "nothing" defaultConfig).priority]] :=
  ⟨by decide, by decide⟩

/-- C4 (amended): for every ordered input sequence and every scorer, the
Batch Runner emits exactly one `[id, str(accept)]` row per input item, in the
original input order, with every prefilter-rejected item present as
`str(False)`; no priority value is emitted. -/
theorem C4_batch_output_shape (rsearch : String → String → Bool)
    (clf : String → ScoreMap) (inputs : List (String × String)) :
    batchRows rsearch clf inputs = inputs.map (fun p =>
      [p.1, pyBool (if prefilter rsearch p.2 then batchAccept (clf p.2) else false)]) ∧
    (batchRows rsearch clf inputs).length = inputs.length := by
  refine ⟨batchRows_eq rsearch clf inputs, ?_⟩
  rw [batchRows_eq]
  exact List.length_map inputs _

/-- C5: every text whose lowercasing contains neither the string "polymer"
nor "polymeric" fails the prefilter — for any behaviour of the regex oracle —
and `decide` therefore returns `accept=False` and `priority=False` without
invoking the scorer (call count 0, result independent of the scorer). -/
theorem C5_polymer_token_necessity (rsearch : String → String → Bool)
    (clf : String → ScoreMap) (abstract_text : String) (cfg : Config)
    (h1 : strContains (pyLower abstract_text) "polymer" = false)
    (h2 : strContains (pyLower abstract_text) "polymeric" = false) :
    prefilter rsearch abstract_text = false ∧
    decideCore rsearch clf abstract_text cfg =
      (⟨false, false, "fails keyword prefilter", 0, 0, 0, 0, none, []⟩, 0) := by
  have hpf : prefilter rsearch abstract_text = false := by
    simp [prefilter, h1, h2]
  exact ⟨hpf, decideCore_reject hpf⟩

theorem C5_polymer_token_necessity_witness :
    (strContains (pyLower "quantum chemistry of CO2") "polymer" = false ∧
      strContains (pyLower "quantum chemistry of CO2") "polymeric" = false) ∧
    (prefilter rsearchAll "quantum chemistry of CO2" = false ∧
      decideCore rsearchAll (fun _ => smOnes) "quantum chemistry of CO2" defaultConfig =
        (⟨false, false, "fails keyword prefilter", 0, 0, 0, 0, none, []⟩, 0)) :=
  ⟨⟨by decide, by decide⟩,
    C5_polymer_token_necessity rsearchAll (fun _ => smOnes) "quantum chemistry of CO2"
      defaultConfig (by decide) (by decide)⟩

/-- C6 counterexample: ties in `top` are broken by the entry order of the
ScoreMap (the scorer's returned order, the dict insertion order), not by the
original taxonomy order of the label set: for a full-coverage ScoreMap whose
first two labels arrive in the opposite of taxonomy order with all scores
equal, `top` keeps the arrived order, while the claim dictates the taxonomy
order. -/
theorem C6_counterexample :
    (decide rsearchAll (fun _ => smSwap) "polymer" defaultConfig).top =
      [("all-atom polymer molecular dynamics", mkRat 1 2),
       ("polymer molecular dynamics with force fields", mkRat 1 2),
       ("united-atom polymer molecular dynamics", mkRat 1 2),
       ("coarse-grained polymer MD (MARTINI)", mkRat 1 2),
       ("reactive polymer MD (ReaxFF)", mkRat 1 2),
       ("polymer melt or solution MD", mkRat 1 2)] ∧
    (decide rsearchAll (fun _ => smSwap) "polymer" defaultConfig).top ≠
      [("polymer molecular dynamics with force fields", mkRat 1 2),
       ("all-atom polymer molecular dynamics", mkRat 1 2),
       ("united-atom polymer molecular dynamics", mkRat 1 2),
       ("coarse-grained polymer MD (MARTINI)", mkRat 1 2),
       ("reactive polymer MD (ReaxFF)", mkRat 1 2),
       ("polymer melt or solution MD", mkRat 1 2)] :=
  ⟨by decide, by decide⟩

/-- C6 (amended): the property of `top` that holds for every ScoreMap —
`top` is the 6-prefix of a stable descending sort of the ScoreMap's entries
(a permutation of the entries, weakly descending by score, with ties kept in
ScoreMap entry order), has length at most 6, and when the scorer returns its
entries already weakly descending (as the zero-shot pipeline does), `top` is
literally the first six entries.  Tie-breaking follows the ScoreMap entry
order, which agrees with taxonomy order only when the entries arrive in
taxonomy order. -/
def C6Concl (rsearch : String → String → Bool) (clf : String → ScoreMap)
    (abstract_text : String) (cfg : Config) : Prop :=
  (decide rsearch clf abstract_text cfg).top = (sortDesc (clf abstract_text)).take 6 ∧
  List.Pairwise (fun a b => b.2 ≤ a.2) (decide rsearch clf abstract_text cfg).top ∧
  (decide rsearch clf abstract_text cfg).top.length ≤ 6 ∧
  (sortDesc (clf abstract_text)).Perm (clf abstract_text) ∧
  (List.Pairwise (fun a b => b.2 ≤ a.2) (clf abstract_text) →
    (decide rsearch clf abstract_text cfg).top = (clf abstract_text).take 6)

/-- C6 (amended): top-diagnostics ordering on the scored path (see `C6Concl`
for the spelled-out property). -/
theorem C6_top_ordering (rsearch : String → String → Bool) (clf : String → ScoreMap)
    (abstract_text : String) (cfg : Config)
    (h : prefilter rsearch abstract_text = true) :
    C6Concl rsearch clf abstract_text cfg := by
  rw [C6Concl, decide_def, decideCore_scored h]
  dsimp only
  refine ⟨rfl, ?_, ?_, sortDesc_perm _, ?_⟩
  · exact (sortDesc_pairwise (clf abstract_text)).sublist (List.take_sublist 6 _)
  · rw [List.length_take]
    exact min_le_left _ _
  · intro hsorted
    rw [sortDesc_of_pairwise _ hsorted]

theorem C6_top_ordering_witness :
    prefilter rsearchAll "polymer" = true ∧
    C6Concl rsearchAll (fun _ => smOnes) "polymer" defaultConfig :=
  ⟨by decide, C6_top_ordering rsearchAll (fun _ => smOnes) "polymer" defaultConfig
    (by decide)⟩

/-- C7: monotonicity of accept in `score_pos` — for a fixed text, regex
oracle and configuration, if the scorer's positive-group maximum increases
while the negative-group maximum stays fixed, `accept` can only move from
False to True, never from True to False. -/
theorem C7_accept_monotone (rsearch : String → String → Bool)
    (clf clf' : String → ScoreMap) (abstract_text : String) (cfg : Config)
    (hpos : scorePos (clf abstract_text) ≤ scorePos (clf' abstract_text))
    (hneg : scoreNeg (clf abstract_text) = scoreNeg (clf' abstract_text))
    (hacc : (decide rsearch clf abstract_text cfg).accept = true) :
    (decide rsearch clf' abstract_text cfg).accept = true := by
  by_cases hpf : prefilter rsearch abstract_text = true
  · rw [decide_def, decideCore_scored hpf] at hacc ⊢
    dsimp only at hacc ⊢
    rw [← hneg]
    exact acceptTest_mono hpos hacc
  · have hpf' : prefilter rsearch abstract_text = false := by simpa using hpf
    rw [decide_def, decideCore_reject hpf'] at hacc
    simp at hacc

theorem C7_accept_monotone_witness :
    (scorePos smPos8 ≤ scorePos smPos9 ∧ scoreNeg smPos8 = scoreNeg smPos9 ∧
      (decide rsearchAll (fun _ => smPos8) "polymer" defaultConfig).accept = true) ∧
    (decide rsearchAll (fun _ => smPos9) "polymer" defaultConfig).accept = true :=
  ⟨⟨by decide, by decide, by decide⟩,
    C7_accept_monotone rsearchAll (fun _ => smPos8) (fun _ => smPos9) "polymer"
      defaultConfig (by decide) (by decide) (by decide)⟩

/-- C8 counterexample: no configuration validation exists anywhere in the
code — there is no engine construction step, and `decide` simply accepts an
accept threshold of 1.5 (outside [0,1]) and applies it per item, returning a
normal Decision (here with `accept=false` and the ordinary reason string)
instead of failing fatally; the same input under the default configuration
accepts, showing the invalid value was genuinely applied. -/
theorem C8_counterexample :
    1 < cfgBad.accept_threshold ∧
    (decide rsearchAll (fun _ => smPos9) "polymer" cfgBad).accept = false ∧
    (decide rsearchAll (fun _ => smPos9) "polymer" cfgBad).reason =
      "pos low or margin small" ∧
    (decide rsearchAll (fun _ => smPos9) "polymer" defaultConfig).accept = true :=
  ⟨by decide, by decide, by decide, by decide⟩

/-- C8 (amended): the code performs no configuration validation; thresholds
and margins of any numeric value are accepted and silently applied inside
every `decide` call — in particular an accept threshold above 1 makes the
accept test unsatisfiable for any scorer output with scores at most 1,
rather than raising a configuration error. -/
theorem C8_no_validation (rsearch : String → String → Bool) (clf : String → ScoreMap)
    (abstract_text : String) (cfg : Config)
    (hth : 1 < cfg.accept_threshold)
    (hsc : ∀ p ∈ clf abstract_text, p.2 ≤ 1) :
    (decide rsearch clf abstract_text cfg).accept = false := by
  by_cases hpf : prefilter rsearch abstract_text = true
  · rw [decide_def, decideCore_scored hpf]
    dsimp only
    have hp1 : scorePos (clf abstract_text) ≤ 1 := by
      rw [scorePos]
      refine listMax_le (by norm_num) ?_
      intro x hx
      obtain ⟨k, _, rfl⟩ := List.mem_map.1 hx
      exact getScore_le_one hsc k
    have hnot : ¬ (cfg.accept_threshold ≤ scorePos (clf abstract_text)) := by
      intro hcontr
      linarith
    rw [acceptTest, show rge (scorePos (clf abstract_text)) cfg.accept_threshold = false from
      by rw [rge]; exact decide_eq_false hnot, Bool.false_and]
  · have hpf' : prefilter rsearch abstract_text = false := by simpa using hpf
    rw [decide_def, decideCore_reject hpf']

theorem C8_no_validation_witness :
    (1 < cfgBad.accept_threshold ∧ (∀ p ∈ smPos9, p.2 ≤ 1)) ∧
    (decide rsearchAll (fun _ => smPos9) "polymer" cfgBad).accept = false :=
  ⟨⟨by decide, by decide⟩,
    C8_no_validation rsearchAll (fun _ => smPos9) "polymer" cfgBad (by decide) (by decide)⟩

/-- C9 counterexample: at a concrete two-item batch whose first item's scorer
call fails, the run aborts with no rows and the failure flag set, even though
the second item passes the prefilter and its scorer call succeeds — the
failure is not isolated to the affected item, no distinguishable per-item
failure is surfaced, and the remaining items of the batch are not processed. -/
theorem C9_counterexample :
    prefilter rsearchAll "polymer beta" = true ∧
    clfFail "polymer beta" = some smPos9 ∧
    batchRunE rsearchAll clfFail [("a.txt", "polymer alpha"), ("b.txt", "polymer beta")] =
      ([], false) :=
  ⟨by decide, by decide, by decide⟩

/-- C9 (amended): a scorer failure is never isolated: the batch run reports
failure (aborting at the failing chunk, with no rows for that chunk or any
later item) exactly when some prefilter-passing input's scorer call fails;
no per-item failure record is produced and the unaffected remainder of the
batch is not processed. -/
theorem C9_scorer_failure_aborts (rsearch : String → String → Bool)
    (clf : String → Option ScoreMap) (inputs : List (String × String)) :
    (batchRunE rsearch clf inputs).2 = false ↔
      ∃ p ∈ inputs, prefilter rsearch p.2 = true ∧ clf p.2 = none :=
  batchRunE_aborts_iff rsearch clf inputs

/-- C10: for every scored text whose ScoreMap scores all lie in [0,1], the
composite `priority_score` lies in [0, 1.05]; and at a concrete full-coverage
all-ones ScoreMap with property keywords present it equals 1.05 > 1 — so
`priority_score` is not itself a probability even though every input score
is. -/
theorem C10_priority_score_range :
    (∀ (rsearch : String → String → Bool) (clf : String → ScoreMap)
      (abstract_text : String) (cfg : Config),
      prefilter rsearch abstract_text = true →
      (∀ p ∈ clf abstract_text, 0 ≤ p.2 ∧ p.2 ≤ 1) →
      0 ≤ (decide rsearch clf abstract_text cfg).priority_score ∧
        (decide rsearch clf abstract_text cfg).priority_score ≤ 1.05) ∧
    (decide rsearchAll (fun _ => smOnes) "polymer" defaultConfig).prop_keywords =
      some true ∧
    1 < (decide rsearchAll (fun _ => smOnes) "polymer" defaultConfig).priority_score := by
  refine ⟨?_, by decide, by decide⟩
  intro rsearch clf abstract_text cfg hpf hsc
  rw [decide_def, decideCore_scored hpf]
  dsimp only
  rw [priorityScoreOf, radd_eq, radd_eq, rmul_eq, rmul_eq, mk7_eq, mk3_eq]
  obtain ⟨hprop0, hprop1⟩ := scoreProp_mem_bounds hsc
  obtain ⟨hpos0, hpos1⟩ := scorePos_mem_bounds hsc
  have hkb0 : 0 ≤ kwBoost (propKw rsearch abstract_text) := by
    rw [kwBoost]
    split <;> norm_num
  have hkb1 : kwBoost (propKw rsearch abstract_text) ≤ 0.05 := by
    rw [kwBoost]
    split <;> norm_num
  constructor <;> nlinarith

theorem C10_priority_score_range_witness :
    (prefilter rsearchAll "polymer" = true ∧ (∀ p ∈ smOnes, 0 ≤ p.2 ∧ p.2 ≤ 1)) ∧
    (0 ≤ (decide rsearchAll (fun _ => smOnes) "polymer" defaultConfig).priority_score ∧
      (decide rsearchAll (fun _ => smOnes) "polymer" defaultConfig).priority_score ≤ 1.05) :=
  ⟨⟨by decide, by decide⟩,
    C10_priority_score_range.1 rsearchAll (fun _ => smOnes) "polymer" defaultConfig
      (by decide) (by decide)⟩
